import Mathlib

/-!
Shallow embedding of the DXF matplotlib backend (`mpldxf/backend_dxf.py`).

Coordinates are modelled as rational pairs.  The external geometry library
(shapely) and the DXF document library (ezdxf) are out of scope: the shapely
intersection primitive is modelled by passing its outcome as an input, and
emitted DXF entities are modelled as plain records.
-/

/-- A 2D point, modelling a coordinate pair of the backend. -/
abbrev Pt := ℚ × ℚ

/-- Outcome of the shapely intersection `line.intersection(cliprect)`:
either empty, a multi-part geometry (`Multi*` or `GeometryCollection`, with the
coordinate list of each part), or a single-part geometry with its coordinates. -/
inductive Geometry where
  | emptyGeom : Geometry
  | multiGeom (parts : List (List Pt)) : Geometry
  | simpleGeom (coords : List Pt) : Geometry
deriving DecidableEq, Repr

/-- The value `vertices` holds after clipping in `_clip_mpl` /
`_draw_mpl_lwpoly`: either one flat list of points (in the source,
`vertices[0][0]` is a float) or a list of contours (`vertices[0][0]` is a
coordinate sequence). -/
inductive Contours where
  | flat (points : List Pt) : Contours
  | multi (contours : List (List Pt)) : Contours
deriving DecidableEq, Repr

/-- Line-mode branch of `_clip_mpl` (backend_dxf.py lines 150-166), after the
shapely intersection has been computed.  The `try/except` around
`line.intersection(cliprect)` is modelled by taking an `Except` value:
`error` stands for an exception raised by the intersection, which the source
replaces by an empty `Polygon()`.  An empty intersection yields `vertices = []`;
a multi-part intersection yields one coordinate list per part; otherwise the
single geometry's coordinates are taken directly. -/
def clip_mpl_line2d (result : Except Unit Geometry) : Contours :=
  let intersection : Geometry :=
    match result with
    | Except.error _ => Geometry.emptyGeom
    | Except.ok g => g
  match intersection with
  | Geometry.emptyGeom => Contours.flat []
  | Geometry.multiGeom parts => Contours.multi parts
  | Geometry.simpleGeom coords => Contours.flat coords

/-- An LWPOLYLINE entity as added by `modelspace.add_lwpolyline`:
vertex list, `close` flag and DXF colour index. -/
structure LWPolyline where
  points : List Pt
  close : Bool
  color : ℕ
deriving DecidableEq, Repr

/-- The value returned by `_draw_mpl_lwpoly`: `None`, a single entity, or a
list of entities (one per contour). -/
inductive PolyResult where
  | nothing : PolyResult
  | one (p : LWPolyline) : PolyResult
  | many (ps : List LWPolyline) : PolyResult
deriving DecidableEq, Repr

/-- Emission stage of `_draw_mpl_lwpoly` (backend_dxf.py lines 184-203), after
clipping.  If the clipped vertex container is empty, `entity = None`.  For a
flat vertex list (`isinstance(vertices[0][0], float)`), the polyline is added
with `close=False` only when the first x-coordinate is nonzero, else
`entity = None`.  For a list of contours, one polyline with `close=False` is
added per contour. -/
def draw_mpl_lwpoly_emit (color : ℕ) (vertices : Contours) : PolyResult :=
  match vertices with
  | Contours.flat [] => PolyResult.nothing
  | Contours.flat (p :: ps) =>
      if p.1 ≠ 0 then
        PolyResult.one ⟨p :: ps, false, color⟩
      else
        PolyResult.nothing
  | Contours.multi [] => PolyResult.nothing
  | Contours.multi contours =>
      PolyResult.many (contours.map (fun pts => ⟨pts, false, color⟩))

/-- Tolerance of `np.allclose(x, np.zeros(3))` with default parameters:
`|x| <= atol + rtol * 0 = 1e-8` per channel. -/
def np_atol : ℚ := 1 / 100000000

/-- The test `np.allclose(np.array(rgb_val[:3]), np.zeros(3))` of
`rgb_to_dxf`. -/
def allclose_zero (rgb : List ℚ) : Bool :=
  rgb.all (fun v => |v| ≤ np_atol)

/-- The colour quantizer `rgb_to_dxf` (backend_dxf.py lines 71-84).  The
missing `dxf_colors` module is abstracted: `nearest_index` stands for
`dxf_colors.nearest_index` and `white` for `dxf_colors.WHITE`.  `None` maps to
`white`; a colour with all channels within tolerance of 0 is remapped to the
index nearest `[255, 255, 255]`; otherwise channels are scaled by 255 and the
nearest palette index is taken. -/
def rgb_to_dxf (nearest_index : List ℚ → ℕ) (white : ℕ)
    (rgb_val : Option (List ℚ)) : ℕ :=
  match rgb_val with
  | none => white
  | some v =>
      if allclose_zero (v.take 3) then
        nearest_index [255, 255, 255]
      else
        nearest_index ((v.take 3).map (fun x => 255 * x))

/-- A HATCH entity created for a filled patch in `_draw_mpl_patch`:
colour, the boundary polyline path (`add_polyline_path(points, is_closed)`)
and the entities it is associated with (`hatch.associate(hpath, [pol])`). -/
structure FillHatch where
  color : ℕ
  boundary_points : List Pt
  boundary_closed : Bool
  assoc : List LWPolyline
deriving DecidableEq, Repr

/-- Fill stage of `_draw_mpl_patch` (backend_dxf.py lines 208-240).  If the
polyline result is falsy (`if not poly: return`) nothing is created.
Otherwise, when a fill colour `rgbFace` is given, one hatch per emitted
polyline is added, coloured `rgb_to_dxf(rgbFace)`, with boundary path taken
from the polyline's own points and closed state, and associated with that
polyline. -/
def draw_mpl_patch_fill (nearest_index : List ℚ → ℕ) (white : ℕ)
    (rgbFace : Option (List ℚ)) (poly : PolyResult) : List FillHatch :=
  match poly with
  | PolyResult.nothing => []
  | PolyResult.many [] => []
  | PolyResult.one p =>
      match rgbFace with
      | none => []
      | some rgb =>
          [⟨rgb_to_dxf nearest_index white (some rgb), p.points, p.close, [p]⟩]
  | PolyResult.many ps =>
      match rgbFace with
      | none => []
      | some rgb =>
          ps.map (fun p =>
            ⟨rgb_to_dxf nearest_index white (some rgb), p.points, p.close, [p]⟩)

/-- Tile counts of `_draw_mpl_hatch` (backend_dxf.py line 256):
`rows, cols = math.ceil(dy / self.dpi) - 1, math.ceil(dx / self.dpi) - 1`,
where `dx, dy` are the extents of the parent path and the tile size is the
renderer's DPI. -/
def hatch_tile_counts (dx dy dpi : ℚ) : ℤ × ℤ :=
  (⌈dy / dpi⌉ - 1, ⌈dx / dpi⌉ - 1)

/-- Python `range(a, b)` over integers, as a list. -/
def py_range (a b : ℤ) : List ℤ :=
  (List.range (b - a).toNat).map (fun (i : ℕ) => a + (i : ℤ))

/-- The offset pairs `(irow, icol)` iterated by the nested loops
`for irow in range(-rows, rows + 1): for icol in range(-cols, cols + 1)`
of `_draw_mpl_hatch` (backend_dxf.py lines 274-275). -/
def hatch_tile_offsets (rows cols : ℤ) : List (ℤ × ℤ) :=
  (py_range (-rows) (rows + 1)).flatMap
    (fun irow => (py_range (-cols) (cols + 1)).map (fun icol => (irow, icol)))

/-- Python `str.upper()` on the alignment keywords: uppercase each
character. -/
def str_upper (s : String) : String := ⟨s.data.map Char.toUpper⟩

/-- The alignment keyword translator `_map_align` (backend_dxf.py lines
449-462).  `none` models the raised `NotImplementedError`; otherwise the
simple keywords are uppercased, `baseline` becomes the empty string,
`center_baseline` becomes `MIDDLE`, and with `vert` set a resulting
`CENTER` is remapped to `MIDDLE`. -/
def map_align (align : String) (vert : Bool) : Option String :=
  let mapped : Option String :=
    if align ∈ (["right", "center", "left", "top", "bottom", "middle"] : List String) then
      some (str_upper align)
    else if align = "baseline" then
      some ""
    else if align = "center_baseline" then
      some "MIDDLE"
    else
      none
  mapped.map (fun a => if vert ∧ a = "CENTER" then "MIDDLE" else a)

/-- The vocabulary of alignment keywords accepted by `map_align`. -/
def align_vocab : List String :=
  ["right", "center", "left", "top", "bottom", "middle", "baseline", "center_baseline"]

/-- The statement `s = s.replace("−", "-")` of `draw_text`
(backend_dxf.py line 383): every Unicode minus sign becomes an ASCII
hyphen.  The following statement of the source,
`s.encode("ascii", "ignore").decode()`, discards its result, so no further
change is made to `s` here. -/
def replace_minus (s : String) : String :=
  ⟨s.data.map (fun c => if c = '−' then '-' else c)⟩

/-- Whether a character survives `encode("ascii", "ignore")`. -/
def ascii_char (c : Char) : Bool := c.toNat ≤ 127

/-- Modelled from the spec: the normalization the spec describes for
`draw_text` — replace Unicode minus signs by hyphens, then drop every
non-ASCII character.  The source computes the second step but discards it. -/
def normalize_spec (s : String) : String :=
  ⟨(replace_minus s).data.filter ascii_char⟩

/-- The fields of the matplotlib `Text` object read by `draw_text`:
`mtext._rotation_mode`, `mtext.get_ha()`, `mtext.get_va()`. -/
structure MText where
  rotation_mode : String
  ha : String
  va : String
deriving DecidableEq, Repr

/-- Horizontal-alignment resolution of `draw_text` (backend_dxf.py lines
408-415): when `angle == 90.0`, the host alignment is mapped if the rotation
mode is `anchor`, and otherwise `halign` is the literal `RIGHT`; for any other
angle the host alignment is mapped. -/
def resolve_halign (angle : ℚ) (rotation_mode ha : String) : Option String :=
  if angle = 90 then
    if rotation_mode = "anchor" then map_align ha false
    else some "RIGHT"
  else map_align ha false

/-- The `alignment_map` dictionary of `draw_text` (backend_dxf.py lines
424-437), with each `TextEntityAlignment` member modelled by its name. -/
def alignment_map : List (String × String) :=
  [("TOP_LEFT", "TOP_LEFT"), ("TOP_CENTER", "TOP_CENTER"),
   ("TOP_RIGHT", "TOP_RIGHT"), ("MIDDLE_LEFT", "MIDDLE_LEFT"),
   ("MIDDLE_CENTER", "MIDDLE_CENTER"), ("MIDDLE_RIGHT", "MIDDLE_RIGHT"),
   ("BOTTOM_LEFT", "BOTTOM_LEFT"), ("BOTTOM_CENTER", "BOTTOM_CENTER"),
   ("BOTTOM_RIGHT", "BOTTOM_RIGHT"), ("LEFT", "LEFT"),
   ("CENTER", "CENTER"), ("RIGHT", "RIGHT")]

/-- The lookup `alignment_map.get(align, TextEntityAlignment.BOTTOM_LEFT)`. -/
def alignment_get (key : String) : String :=
  ((alignment_map.lookup key).getD "BOTTOM_LEFT")

/-- Result of a `draw_text` call: `noop` when `mtext is None`; `indexError`
when `s[0]` is evaluated on an empty string; `alignError` when `_map_align`
raises; otherwise the emitted TEXT entity's content and alignment data. -/
inductive TextOutcome where
  | noop : TextOutcome
  | indexError : TextOutcome
  | alignError : TextOutcome
  | text (content halign valign align : String) : TextOutcome
deriving DecidableEq, Repr

/-- The string and alignment pipeline of `draw_text` (backend_dxf.py lines
373-446).  The regex-based math-markup stripping applied when the string
starts with a dollar sign (external `re` module) is abstracted as
`strip_math`.  When `mtext` is `None` the call is a no-op.  Otherwise the
minus-sign replacement is applied, `s[0]` is inspected (an out-of-bounds
access on the empty string), the content is chosen, the horizontal and
vertical alignments are resolved, composed with an underscore separator
(omitted when the vertical part is empty) and looked up in `alignment_map`. -/
def draw_text_model (strip_math : String → String)
    (s : String) (angle : ℚ) (mtext : Option MText) : TextOutcome :=
  match mtext with
  | none => TextOutcome.noop
  | some m =>
      let s1 := replace_minus s
      match s1.data with
      | [] => TextOutcome.indexError
      | c :: _ =>
          let content := if c = '$' then strip_math s1 else s1
          match resolve_halign angle m.rotation_mode m.ha, map_align m.va true with
          | some halign, some valign =>
              let align := (if valign = "" then "" else valign ++ "_") ++ halign
              TextOutcome.text content halign valign (alignment_get align)
          | _, _ => TextOutcome.alignError

lemma mem_py_range {a b i : ℤ} : i ∈ py_range a b ↔ a ≤ i ∧ i < b := by
  simp only [py_range, List.mem_map, List.mem_range]
  constructor
  · rintro ⟨j, hj, rfl⟩
    omega
  · rintro ⟨h1, h2⟩
    exact ⟨(i - a).toNat, by omega, by omega⟩

lemma length_py_range (a b : ℤ) : (py_range a b).length = (b - a).toNat := by
  rw [py_range, List.length_map, List.length_range]

lemma mem_hatch_tile_offsets {rows cols : ℤ} {rc : ℤ × ℤ} :
    rc ∈ hatch_tile_offsets rows cols ↔
      -rows ≤ rc.1 ∧ rc.1 ≤ rows ∧ -cols ≤ rc.2 ∧ rc.2 ≤ cols := by
  obtain ⟨r, c⟩ := rc
  simp only [hatch_tile_offsets, List.mem_flatMap, List.mem_map, mem_py_range]
  constructor
  · rintro ⟨r0, ⟨hr1, hr2⟩, c0, ⟨hc1, hc2⟩, h⟩
    simp only [Prod.mk.injEq] at h
    obtain ⟨rfl, rfl⟩ := h
    refine ⟨hr1, by omega, hc1, by omega⟩
  · rintro ⟨h1, h2, h3, h4⟩
    exact ⟨r, ⟨h1, by omega⟩, c, ⟨h3, by omega⟩, rfl⟩

lemma sum_map_const {α : Type} (l : List α) (c : ℕ) :
    (l.map (fun _ => c)).sum = l.length * c := by
  induction l with
  | nil => simp
  | cons x xs ih => simp [ih, Nat.succ_mul, Nat.add_comm]

lemma length_hatch_tile_offsets (rows cols : ℤ) :
    (hatch_tile_offsets rows cols).length =
      (rows + 1 - (-rows)).toNat * (cols + 1 - (-cols)).toNat := by
  rw [hatch_tile_offsets, List.length_flatMap]
  simp only [Function.comp_def]
  have h : (List.map (fun irow =>
      ((py_range (-cols) (cols + 1)).map (fun icol => (irow, icol))).length)
        (py_range (-rows) (rows + 1)))
      = (py_range (-rows) (rows + 1)).map (fun _ => (cols + 1 - (-cols)).toNat) := by
    apply List.map_congr_left
    intro x _
    rw [List.length_map, length_py_range]
  rw [h, sum_map_const, length_py_range]

/-- C5: in line mode, an exception raised by the intersection computation is
caught and treated as an empty intersection: the clip returns the empty
contour set and the emission stage then emits no entity, whatever the stroke
colour. -/
theorem clip_line_exception_empty :
    ∀ color : ℕ,
      clip_mpl_line2d (Except.error ()) = Contours.flat [] ∧
      clip_mpl_line2d (Except.error ()) = clip_mpl_line2d (Except.ok Geometry.emptyGeom) ∧
      draw_mpl_lwpoly_emit color (clip_mpl_line2d (Except.error ())) = PolyResult.nothing := by
  intro color
  exact ⟨rfl, rfl, rfl⟩

/-- C6: the colour quantizer maps pure black (each channel within the
`np.allclose` tolerance of 0) to the palette index nearest white, so
quantizing `(0,0,0)` and `(1,1,1)` give the same index, for any palette
lookup; and a `None` input returns the fixed default white index. -/
theorem rgb_to_dxf_black_to_white :
    ∀ (nearest_index : List ℚ → ℕ) (white : ℕ),
      rgb_to_dxf nearest_index white (some [0, 0, 0]) =
        rgb_to_dxf nearest_index white (some [1, 1, 1]) ∧
      rgb_to_dxf nearest_index white (some [1, 1, 1]) = nearest_index [255, 255, 255] ∧
      rgb_to_dxf nearest_index white none = white ∧
      (∀ r g b : ℚ, |r| ≤ np_atol → |g| ≤ np_atol → |b| ≤ np_atol →
        rgb_to_dxf nearest_index white (some [r, g, b]) = nearest_index [255, 255, 255]) := by
  intro nearest_index white
  refine ⟨?_, ?_, rfl, ?_⟩
  · norm_num [rgb_to_dxf, allclose_zero, np_atol]
  · norm_num [rgb_to_dxf, allclose_zero, np_atol]
  · intro r g b hr hg hb
    simp [rgb_to_dxf, allclose_zero, List.all_cons, hr, hg, hb]

/-- Witness for C6 at a concrete palette lookup (list length) and input. -/
theorem rgb_to_dxf_black_to_white_witness :
    rgb_to_dxf List.length 7 (some [0, 0, 0]) = List.length [255, 255, 255] :=
  (rgb_to_dxf_black_to_white List.length 7).2.2.2 0 0 0
    (by norm_num [np_atol]) (by norm_num [np_atol]) (by norm_num [np_atol])

/-- C4: the tile counts are `rows = ceil(dy/dpi) - 1` and
`cols = ceil(dx/dpi) - 1` with the tile size equal to the DPI, the tiler
iterates exactly over the integer offset pairs in `[-rows, rows] x
[-cols, cols]` inclusive, the grid has `(2 rows + 1) * (2 cols + 1)` tiles,
and a 300 x 150 bounding box with tile size 100 gives `rows = 1`, `cols = 2`
and a 3 x 5 = 15 tile grid. -/
theorem hatch_tile_grid_spec :
    ∀ (dx dy dpi : ℚ) (rows cols : ℤ),
      hatch_tile_counts dx dy dpi = (⌈dy / dpi⌉ - 1, ⌈dx / dpi⌉ - 1) ∧
      (∀ rc : ℤ × ℤ, rc ∈ hatch_tile_offsets rows cols ↔
        -rows ≤ rc.1 ∧ rc.1 ≤ rows ∧ -cols ≤ rc.2 ∧ rc.2 ≤ cols) ∧
      (hatch_tile_offsets rows cols).length =
        (2 * rows + 1).toNat * (2 * cols + 1).toNat ∧
      hatch_tile_counts 300 150 100 = (1, 2) ∧
      (hatch_tile_offsets 1 2).length = 15 := by
  intro dx dy dpi rows cols
  refine ⟨rfl, fun rc => mem_hatch_tile_offsets, ?_, ?_, by decide⟩
  · rw [length_hatch_tile_offsets]
    have h1 : (rows + 1 - -rows).toNat = (2 * rows + 1).toNat := by omega
    have h2 : (cols + 1 - -cols).toNat = (2 * cols + 1).toNat := by omega
    rw [h1, h2]
  · have h1 : (⌈(150 : ℚ) / 100⌉ : ℤ) = 2 := by norm_num [Int.ceil_eq_iff]
    have h2 : (⌈(300 : ℚ) / 100⌉ : ℤ) = 3 := by norm_num [Int.ceil_eq_iff]
    simp [hatch_tile_counts, h1, h2]

/-- C7: `map_align` fails exactly on keywords outside the vocabulary
`right, center, left, top, bottom, middle, baseline, center_baseline`; each
in-vocabulary keyword maps without error: the simple keywords uppercase,
`baseline` becomes the empty string, `center_baseline` becomes `MIDDLE`,
and `CENTER` is remapped to `MIDDLE` when the vertical flag is set. -/
theorem map_align_vocab_spec :
    ∀ (a : String) (v : Bool),
      ((map_align a v = none) ↔ a ∉ align_vocab) ∧
      map_align "right" v = some "RIGHT" ∧
      map_align "center" v = some (if v then "MIDDLE" else "CENTER") ∧
      map_align "left" v = some "LEFT" ∧
      map_align "top" v = some "TOP" ∧
      map_align "bottom" v = some "BOTTOM" ∧
      map_align "middle" v = some "MIDDLE" ∧
      map_align "baseline" v = some "" ∧
      map_align "center_baseline" v = some "MIDDLE" := by
  intro a v
  refine ⟨?_, ?_, ?_, ?_, ?_, ?_, ?_, ?_, ?_⟩
  · simp only [map_align, align_vocab, List.mem_cons, List.not_mem_nil, or_false]
    split_ifs with h1 h2 h3 <;> simp_all <;> tauto
  all_goals cases v <;> decide

/-- C1: a multi-part line intersection is returned as one contour per
disjoint piece, never merged, and the emission stage then adds one polyline
entity per piece; in particular an intersection with exactly 2 disjoint
components yields exactly 2 contours and 2 polyline entities. -/
theorem clip_line_disjoint_split :
    ∀ (q : List Pt) (qs : List (List Pt)) (color : ℕ),
      clip_mpl_line2d (Except.ok (Geometry.multiGeom (q :: qs))) = Contours.multi (q :: qs) ∧
      draw_mpl_lwpoly_emit color (Contours.multi (q :: qs)) =
        PolyResult.many ((q :: qs).map (fun pts => ⟨pts, false, color⟩)) ∧
      ((q :: qs).map (fun pts => (⟨pts, false, color⟩ : LWPolyline))).length =
        (q :: qs).length ∧
      clip_mpl_line2d (Except.ok (Geometry.multiGeom [[(1, 1), (6, 1)], [(14, 1), (20, 1)]])) =
        Contours.multi [[(1, 1), (6, 1)], [(14, 1), (20, 1)]] ∧
      draw_mpl_lwpoly_emit 5 (Contours.multi [[(1, 1), (6, 1)], [(14, 1), (20, 1)]]) =
        PolyResult.many [⟨[(1, 1), (6, 1)], false, 5⟩, ⟨[(14, 1), (20, 1)], false, 5⟩] := by
  intro q qs color
  exact ⟨rfl, rfl, by simp, by decide, by decide⟩

/-- C2 counterexample: the clip of a single-part intersection whose first
vertex lies on the y-axis is a non-empty contour, yet the emission stage
adds no polyline entity for it (first x-coordinate equal to 0). -/
theorem lwpoly_zero_x_contour_dropped :
    clip_mpl_line2d (Except.ok (Geometry.simpleGeom [(0, 0), (10, 10)])) =
      Contours.flat [(0, 0), (10, 10)] ∧
    draw_mpl_lwpoly_emit 7 (Contours.flat [(0, 0), (10, 10)]) = PolyResult.nothing ∧
    ([((0 : ℚ), (0 : ℚ)), (10, 10)] : List Pt) ≠ [] := by
  exact ⟨rfl, by decide, by decide⟩

/-- C2 amended: one polyline entity per resulting contour with the closed
flag always false and the stroke colour, except that a single-contour result
whose first vertex has x-coordinate exactly 0 is silently dropped. -/
theorem lwpoly_emit_amended :
    ∀ (color : ℕ) (p : Pt) (pts : List Pt) (q : List Pt) (qs : List (List Pt)),
      draw_mpl_lwpoly_emit color (Contours.flat (p :: pts)) =
        (if p.1 ≠ 0 then PolyResult.one ⟨p :: pts, false, color⟩
         else PolyResult.nothing) ∧
      draw_mpl_lwpoly_emit color (Contours.flat []) = PolyResult.nothing ∧
      (∃ ps, draw_mpl_lwpoly_emit color (Contours.multi (q :: qs)) = PolyResult.many ps ∧
        ps.length = (q :: qs).length ∧
        (∀ e ∈ ps, e.close = false ∧ e.color = color) ∧
        ps.map LWPolyline.points = q :: qs) := by
  intro color p pts q qs
  refine ⟨rfl, rfl, (q :: qs).map (fun pts2 => ⟨pts2, false, color⟩), rfl, by simp, ?_,
    by simp [Function.comp_def]⟩
  intro e he
  simp only [List.mem_map] at he
  obtain ⟨pts2, _, rfl⟩ := he
  exact ⟨rfl, rfl⟩

/-- C3: for a filled patch, one hatch entity is created per emitted polyline,
coloured with the quantized fill colour, with boundary path exactly the
polyline's own point sequence and closed state, associated with that
polyline; and when no polyline was emitted, no hatch is created. -/
theorem patch_fill_hatches_spec :
    ∀ (nearest_index : List ℚ → ℕ) (white : ℕ) (rgb : List ℚ)
      (p q : LWPolyline) (qs : List LWPolyline),
      draw_mpl_patch_fill nearest_index white (some rgb) (PolyResult.one p) =
        [⟨rgb_to_dxf nearest_index white (some rgb), p.points, p.close, [p]⟩] ∧
      draw_mpl_patch_fill nearest_index white (some rgb) (PolyResult.many (q :: qs)) =
        (q :: qs).map (fun e =>
          ⟨rgb_to_dxf nearest_index white (some rgb), e.points, e.close, [e]⟩) ∧
      (draw_mpl_patch_fill nearest_index white (some rgb) (PolyResult.many (q :: qs))).length =
        (q :: qs).length ∧
      draw_mpl_patch_fill nearest_index white (some rgb) PolyResult.nothing = [] ∧
      draw_mpl_patch_fill nearest_index white (some rgb) (PolyResult.many []) = [] := by
  intro nearest_index white rgb p q qs
  refine ⟨rfl, rfl, ?_, rfl, rfl⟩
  simp [draw_mpl_patch_fill]

/-- C8 counterexample: at a rotation of exactly 90 degrees with rotation
mode `anchor`, the horizontal alignment is NOT forced to `RIGHT`: the host
alignment `left` is mapped as given, producing `LEFT`. -/
theorem draw_text_anchor_rotation_cex :
    draw_text_model id "ab" 90 (some ⟨"anchor", "left", "bottom"⟩) =
      TextOutcome.text "ab" "LEFT" "BOTTOM" "BOTTOM_LEFT" ∧
    ("LEFT" : String) ≠ "RIGHT" := by
  exact ⟨by decide, by decide⟩

/-- C8 amended: at a rotation of exactly 90 degrees the horizontal alignment
is forced to `RIGHT` precisely when the rotation mode is NOT `anchor`; when
the mode is `anchor`, or the angle differs from 90, the host alignment is
mapped as given. -/
theorem resolve_halign_amended :
    ∀ (angle : ℚ) (mode ha : String),
      (angle = 90 → mode ≠ "anchor" → resolve_halign angle mode ha = some "RIGHT") ∧
      (angle = 90 → mode = "anchor" → resolve_halign angle mode ha = map_align ha false) ∧
      (angle ≠ 90 → resolve_halign angle mode ha = map_align ha false) ∧
      draw_text_model id "ab" 90 (some ⟨"default", "left", "bottom"⟩) =
        TextOutcome.text "ab" "RIGHT" "BOTTOM" "BOTTOM_RIGHT" := by
  intro angle mode ha
  refine ⟨?_, ?_, ?_, by decide⟩
  · intro h1 h2
    simp [resolve_halign, h1, h2]
  · intro h1 h2
    simp [resolve_halign, h1, h2]
  · intro h1
    simp [resolve_halign, h1]

/-- Witness for the amended C8 at a concrete non-anchor call. -/
theorem resolve_halign_amended_witness :
    resolve_halign 90 "default" "left" = some "RIGHT" :=
  (resolve_halign_amended 90 "default" "left").1 rfl (by decide)

/-- C9: the Unicode minus sign is replaced by an ASCII hyphen, but non-ASCII
characters are NOT removed: the result of `encode("ascii", "ignore")` is
discarded by the source, so the stored text keeps the non-ASCII letter,
while the spec-intended normalization would drop it. -/
theorem draw_text_non_ascii_kept :
    draw_text_model id "α−5" 0 (some ⟨"default", "left", "bottom"⟩) =
      TextOutcome.text "α-5" "LEFT" "BOTTOM" "BOTTOM_LEFT" ∧
    ("α-5" : String).data.all ascii_char = false ∧
    normalize_spec "α−5" = "-5" := by
  exact ⟨by decide, by decide, by decide⟩

/-- C10: with a rich-text object supplied, `draw_text` evaluates `s[0]` on
the normalized string, so it fails with an out-of-bounds access exactly on
the empty string, whatever the markup stripper, the angle and the alignment
fields; without a rich-text object the call is a no-op. -/
theorem draw_text_empty_string_total :
    ∀ (strip : String → String) (s : String) (angle : ℚ) (m : MText),
      (draw_text_model strip s angle (some m) = TextOutcome.indexError ↔ s = "") ∧
      draw_text_model strip s angle none = TextOutcome.noop := by
  intro strip s angle m
  refine ⟨?_, rfl⟩
  obtain ⟨data⟩ := s
  cases data with
  | nil =>
      simp [draw_text_model, replace_minus]
  | cons c cs =>
      simp only [draw_text_model, replace_minus, List.map_cons]
      cases hx : resolve_halign angle m.rotation_mode m.ha <;>
        cases hy : map_align m.va true <;>
          simp [String.ext_iff]
